import Mathlib

/-!
Shallow embedding of the physics-demos repository (rope.py, cloth.py,
planet-orbit.py) over exact rational arithmetic, plus theorems settling the
spec claims.

Modelling conventions:
- numpy 2-vectors become the structure Vec with componentwise arithmetic;
- Python floats become rationals; the expression (dot r r) ** 0.5 is
  modelled by Rat.sqrt, which agrees exactly with the real square root on
  squares of rationals - every theorem below evaluates it only at such
  arguments;
- a numpy division whose divisor is zero produces a non-finite value in the
  source (a warning, not an exception); where such a division would poison
  simulation state (constraint relaxation, pairwise gravity) the embedding
  returns Except.error SimError.degenerateSeparation at exactly the states
  where the source divides by zero, so that no theorem can silently treat the
  non-finite result as a number. Code paths with no zero divisor are total.
-/

set_option maxHeartbeats 1000000

/-- Two-dimensional vector with rational components; embeds the numpy arrays
created by vec(x, y) in all three source files. -/
@[ext]
structure Vec where
  x : ℚ
  y : ℚ

instance : Add Vec := ⟨fun a b => ⟨a.x + b.x, a.y + b.y⟩⟩

instance : Sub Vec := ⟨fun a b => ⟨a.x - b.x, a.y - b.y⟩⟩

/-- Scalar times vector, as in the sources' expressions like delta * r_hat. -/
def Vec.smul (c : ℚ) (v : Vec) : Vec := ⟨c * v.x, c * v.y⟩

/-- Vector divided by scalar, as in r / r_mag in the sources. -/
def Vec.sdiv (v : Vec) (c : ℚ) : Vec := ⟨v.x / c, v.y / c⟩

/-- Embeds np.dot on 2-vectors. -/
def Vec.dot (a b : Vec) : ℚ := a.x * b.x + a.y * b.y

@[simp]
lemma Vec.add_x (a b : Vec) : (a + b).x = a.x + b.x := rfl

@[simp]
lemma Vec.add_y (a b : Vec) : (a + b).y = a.y + b.y := rfl

@[simp]
lemma Vec.sub_x (a b : Vec) : (a - b).x = a.x - b.x := rfl

@[simp]
lemma Vec.sub_y (a b : Vec) : (a - b).y = a.y - b.y := rfl

@[simp]
lemma Vec.smul_x (c : ℚ) (v : Vec) : (Vec.smul c v).x = c * v.x := rfl

@[simp]
lemma Vec.smul_y (c : ℚ) (v : Vec) : (Vec.smul c v).y = c * v.y := rfl

@[simp]
lemma Vec.sdiv_x (v : Vec) (c : ℚ) : (Vec.sdiv v c).x = v.x / c := rfl

@[simp]
lemma Vec.sdiv_y (v : Vec) (c : ℚ) : (Vec.sdiv v c).y = v.y / c := rfl

@[simp]
lemma Vec.dot_def (a b : Vec) : Vec.dot a b = a.x * b.x + a.y * b.y := rfl

@[simp]
lemma Vec.mk_x (a b : ℚ) : (Vec.mk a b).x = a := rfl

@[simp]
lemma Vec.mk_y (a b : ℚ) : (Vec.mk a b).y = b := rfl

/-- Rat.sqrt is exact on squares of rationals; this is how every occurrence of
(dot r r) ** 0.5 below is evaluated. -/
lemma sqrtQ_of_sq (a q : ℚ) (h : 0 ≤ a) (hq : q = a * a) : Rat.sqrt q = a := by
  rw [hq, Rat.sqrt_eq, abs_of_nonneg h]

/-- Fixed timestep DT = 1/FPS = 1/100, shared by all three source files. -/
def DT : ℚ := 1 / 100

/-- The constant JAKOBSEN_ITERATIONS = 20 of rope.py and cloth.py. -/
def JAKOBSEN_ITERATIONS : Nat := 20

/-- The constant G = 1000 of rope.py and cloth.py (uniform gravity scale). -/
def ropeG : ℚ := 1000

/-- The constant G = 10000 of planet-orbit.py (pairwise gravity scale). -/
def planetG : ℚ := 10000

/-- Embeds the distance helper of rope.py / cloth.py:
r = x2 - x1; return np.dot(r, r) ** 0.5. -/
def distanceQ (x1 x2 : Vec) : ℚ := Rat.sqrt (Vec.dot (x2 - x1) (x2 - x1))

/-- Runtime failure marker: the embedding returns this exactly where the
source performs a division whose divisor is zero (coincident constraint
endpoints or coincident gravitating bodies), which in the source produces a
non-finite float rather than raising. -/
inductive SimError where
  | degenerateSeparation

/-- The Particle class of rope.py / cloth.py.  The v field is the diagnostic
velocity the source assigns inside update(); it is initialised to zero here
(the source leaves it unset until the first update). -/
structure Particle where
  m : ℚ
  r : ℚ
  x : Vec
  xPrev : Vec
  f : Vec
  v : Vec
  fixed : Bool

/-- Particle.__init__(x, r, m). -/
def Particle.make (x : Vec) (r m : ℚ) : Particle :=
  { m := m, r := r, x := x, xPrev := x, f := ⟨0, 0⟩, v := ⟨0, 0⟩, fixed := false }

/-- Particle.update: Stoermer-Verlet position update with f reset. -/
def Particle.update (p : Particle) : Particle :=
  let a := p.f.sdiv p.m
  let xNew := Vec.smul 2 p.x - p.xPrev + Vec.smul (DT * DT) a
  { p with x := xNew, xPrev := p.x, v := (xNew - p.x).sdiv DT, f := ⟨0, 0⟩ }

/-- Particle.add_gravity: f += m * G * vec(0, 1). -/
def Particle.add_gravity (p : Particle) : Particle :=
  { p with f := p.f + Vec.smul (p.m * ropeG) ⟨0, 1⟩ }

/-- Exception-aware left fold: embeds a Python for-loop whose body may divide
by zero (stops at the first failing iteration). -/
def foldE {α β : Type} (f : β → α → Except SimError β) : β → List α → Except SimError β
  | b, [] => Except.ok b
  | b, a :: l =>
    match f b a with
    | Except.ok bNext => foldE f bNext l
    | Except.error e => Except.error e

/-- One per-constraint Jakobsen correction.  This is the shared body of the
inner loop of Rope.jakobsen (rope.py lines 100-115) and of
Cloth.relax_constraint (cloth.py lines 130-143), which are textually
identical.  Except.error is returned exactly when the source would compute
r / r_mag with r_mag == 0. -/
def relaxPairE (stiffness gap : ℚ) (v w : Particle) : Except SimError (Particle × Particle) :=
  if v.fixed && w.fixed then Except.ok (v, w)
  else
    let r := w.x - v.x
    let r_mag := Rat.sqrt (Vec.dot r r)
    if r_mag = 0 then Except.error SimError.degenerateSeparation
    else
      let r_hat := r.sdiv r_mag
      let delta := r_mag - gap
      let k := 1 - (1 - stiffness) ^ JAKOBSEN_ITERATIONS
      if v.fixed then
        Except.ok (v, { w with x := w.x - Vec.smul (k / w.m * delta) r_hat })
      else if w.fixed then
        Except.ok ({ v with x := v.x + Vec.smul (k / v.m * delta) r_hat }, w)
      else
        Except.ok ({ v with x := v.x + Vec.smul (k / v.m * (delta / 2)) r_hat },
          { w with x := w.x - Vec.smul (k / w.m * (delta / 2)) r_hat })

/-- The Rope class state: particle list, rest gap, stiffness. -/
structure Rope where
  particles : List Particle
  gap : ℚ
  stiffness : ℚ

/-- Rope.__init__(start, end, num_particles, r, m, stiffness).  The source
contains no raise site: the division length / (num_particles - 1) is numpy
float division, which for num_particles < 2 emits a warning and yields a
non-finite value (modelled by the q / 0 = 0 junk convention, whose value no
theorem relies on) - it does not fail, and the Rope object is created. -/
def Rope.make (start endP : Vec) (num_particles : Nat) (r m stiffness : ℚ) : Rope :=
  let length := distanceQ start endP
  let unitStride := (endP - start).sdiv length
  let gap := length / ((num_particles : ℚ) - 1)
  let particles := (List.range num_particles).map fun (i : Nat) =>
    Particle.make (start + Vec.smul ((i : ℚ) * gap) unitStride) r m
  ⟨particles, gap, stiffness⟩

/-- Rope.setFixed(i): silently ignores an out-of-range index, else toggles
the pinned flag. -/
def Rope.setFixed (rp : Rope) (i : Int) : Rope :=
  if i < 0 ∨ (rp.particles.length : Int) ≤ i then rp
  else
    match rp.particles.get? i.toNat with
    | some p => { rp with particles := rp.particles.set i.toNat { p with fixed := !p.fixed } }
    | none => rp

/-- Rope.setPosition(i, pos): silently ignores an out-of-range index, else
overwrites the particle position. -/
def Rope.setPosition (rp : Rope) (i : Int) (pos : Vec) : Rope :=
  if i < 0 ∨ (rp.particles.length : Int) ≤ i then rp
  else
    match rp.particles.get? i.toNat with
    | some p => { rp with particles := rp.particles.set i.toNat { p with x := pos } }
    | none => rp

/-- Rope.add_gravity: applies gravity to every non-fixed particle (note the
fixed check, which cloth.py's add_gravity lacks). -/
def Rope.add_gravity (rp : Rope) : Rope :=
  { rp with particles := rp.particles.map fun p => if p.fixed then p else p.add_gravity }

/-- Rope.update: integrates every non-fixed particle. -/
def Rope.update (rp : Rope) : Rope :=
  { rp with particles := rp.particles.map fun p => if p.fixed then p else p.update }

/-- Body of the inner loop of Rope.jakobsen for index i: relax the constraint
between particles i and i+1 and write both back. -/
def Rope.relaxIndexE (stiffness gap : ℚ) (ps : List Particle) (i : Nat) :
    Except SimError (List Particle) :=
  match ps.get? i, ps.get? (i + 1) with
  | some v, some w =>
    match relaxPairE stiffness gap v w with
    | Except.ok (vNew, wNew) => Except.ok ((ps.set i vNew).set (i + 1) wNew)
    | Except.error e => Except.error e
  | _, _ => Except.ok ps

/-- One full relaxation pass of Rope.jakobsen: for i in range(len - 1). -/
def Rope.passE (stiffness gap : ℚ) (ps : List Particle) : Except SimError (List Particle) :=
  foldE (Rope.relaxIndexE stiffness gap) ps (List.range (ps.length - 1))

/-- n relaxation passes over a rope (the source always runs
JAKOBSEN_ITERATIONS of them; the pass count is abstracted so that claims
about sufficiently many passes are statable). -/
def Rope.passesE : Nat → Rope → Except SimError Rope
  | 0, rp => Except.ok rp
  | Nat.succ n, rp =>
    match Rope.passE rp.stiffness rp.gap rp.particles with
    | Except.ok ps => Rope.passesE n { rp with particles := ps }
    | Except.error e => Except.error e

/-- Rope.jakobsen: JAKOBSEN_ITERATIONS relaxation passes. -/
def Rope.jakobsenE (rp : Rope) : Except SimError Rope :=
  Rope.passesE JAKOBSEN_ITERATIONS rp

/-- Nested grid of particles, as cloth.py's list of lists. -/
abbrev Grid := List (List Particle)

/-- self.particles[i][j] on a grid, as an Option. -/
def gridGet (g : Grid) (i j : Nat) : Option Particle :=
  (g.get? i).bind fun row => row.get? j

/-- self.particles[i][j] = p on a grid (no-op when out of range; all uses in
the source are in range). -/
def gridSet (g : Grid) (i j : Nat) (p : Particle) : Grid :=
  match g.get? i with
  | some row => g.set i (row.set j p)
  | none => g

/-- The Cloth class state. -/
structure Cloth where
  particles : Grid
  xGap : ℚ
  yGap : ℚ
  stiffness : ℚ

/-- Cloth.__init__(start, end, num_particles, r, m, stiffness).  Gaps use the
absolute coordinate differences; each particle (i, j) sits at
(startX + i * xGap, startY + j * yGap).  As with Rope.make there is no raise
site: num_particles < 2 yields non-finite gap values in the source, not an
exception, and the object is created. -/
def Cloth.make (start endP : Vec) (num_particles : Nat) (r m stiffness : ℚ) : Cloth :=
  let xLength := |endP.x - start.x|
  let yLength := |endP.y - start.y|
  let xGap := xLength / ((num_particles : ℚ) - 1)
  let yGap := yLength / ((num_particles : ℚ) - 1)
  let particles := (List.range num_particles).map fun (i : Nat) =>
    (List.range num_particles).map fun (j : Nat) =>
      Particle.make ⟨start.x + (i : ℚ) * xGap, start.y + (j : ℚ) * yGap⟩ r m
  ⟨particles, xGap, yGap, stiffness⟩

/-- self.particles[i][j] of a cloth. -/
def Cloth.getP (c : Cloth) (i j : Nat) : Option Particle :=
  gridGet c.particles i j

/-- Cloth.setFixed(i, j): the source checks i against len(self.particles)
first and returns before ever evaluating len(self.particles[0]), then checks
j; out of range is a silent no-op. -/
def Cloth.setFixed (c : Cloth) (i j : Int) : Cloth :=
  if i < 0 ∨ (c.particles.length : Int) ≤ i then c
  else if j < 0 ∨ ((c.particles.headI).length : Int) ≤ j then c
  else
    match gridGet c.particles i.toNat j.toNat with
    | some p => { c with particles := gridSet c.particles i.toNat j.toNat { p with fixed := !p.fixed } }
    | none => c

/-- Cloth.setPosition(i, j, pos): same range checks as setFixed. -/
def Cloth.setPosition (c : Cloth) (i j : Int) (pos : Vec) : Cloth :=
  if i < 0 ∨ (c.particles.length : Int) ≤ i then c
  else if j < 0 ∨ ((c.particles.headI).length : Int) ≤ j then c
  else
    match gridGet c.particles i.toNat j.toNat with
    | some p => { c with particles := gridSet c.particles i.toNat j.toNat { p with x := pos } }
    | none => c

/-- Cloth.add_gravity: applies gravity to EVERY particle - unlike
Rope.add_gravity the source has no fixed check here (cloth.py lines
112-118). -/
def Cloth.add_gravity (c : Cloth) : Cloth :=
  { c with particles := c.particles.map fun row => row.map Particle.add_gravity }

/-- Cloth.update: integrates every non-fixed particle; a fixed particle is
skipped entirely, so its accumulated force is never reset. -/
def Cloth.update (c : Cloth) : Cloth :=
  { c with particles := c.particles.map fun row => row.map fun p => if p.fixed then p else p.update }

/-- One constraint correction inside Cloth.jakobsen: relax particles
(i1, j1) and (i2, j2) against the given rest gap and write both back. -/
def Cloth.relaxAtE (stiffness gap : ℚ) (g : Grid) (i1 j1 i2 j2 : Nat) :
    Except SimError Grid :=
  match gridGet g i1 j1, gridGet g i2 j2 with
  | some v, some w =>
    match relaxPairE stiffness gap v w with
    | Except.ok (vNew, wNew) => Except.ok (gridSet (gridSet g i1 j1 vNew) i2 j2 wNew)
    | Except.error e => Except.error e
  | _, _ => Except.ok g

/-- Index pairs of the vertical sweep of Cloth.jakobsen, in source order:
for i in range(rows - 1): for j in range(cols). -/
def vertPairs (rows cols : Nat) : List (Nat × Nat) :=
  (List.range (rows - 1)).flatMap fun i => (List.range cols).map fun j => (i, j)

/-- Index pairs of the horizontal sweep of Cloth.jakobsen, in source order:
for i in range(rows): for j in range(cols - 1). -/
def horizPairs (rows cols : Nat) : List (Nat × Nat) :=
  (List.range rows).flatMap fun i => (List.range (cols - 1)).map fun j => (i, j)

/-- One full pass of Cloth.jakobsen: the vertical sweep (rest gap yGap,
endpoints (i, j) and (i+1, j)) followed by the horizontal sweep (rest gap
xGap, endpoints (i, j) and (i, j+1)). -/
def Cloth.sweepE (stiffness xGap yGap : ℚ) (rows cols : Nat) (g : Grid) :
    Except SimError Grid :=
  match foldE (fun gCur ij => Cloth.relaxAtE stiffness yGap gCur ij.1 ij.2 (ij.1 + 1) ij.2)
      g (vertPairs rows cols) with
  | Except.ok g1 =>
    foldE (fun gCur ij => Cloth.relaxAtE stiffness xGap gCur ij.1 ij.2 ij.1 (ij.2 + 1))
      g1 (horizPairs rows cols)
  | Except.error e => Except.error e

/-- n passes of the cloth sweep. -/
def Cloth.passesE (stiffness xGap yGap : ℚ) (rows cols : Nat) : Nat → Grid → Except SimError Grid
  | 0, g => Except.ok g
  | Nat.succ n, g =>
    match Cloth.sweepE stiffness xGap yGap rows cols g with
    | Except.ok gNext => Cloth.passesE stiffness xGap yGap rows cols n gNext
    | Except.error e => Except.error e

/-- Cloth.jakobsen: rows and cols are read once, then JAKOBSEN_ITERATIONS
passes of vertical-then-horizontal sweeps. -/
def Cloth.jakobsenE (c : Cloth) : Except SimError Cloth :=
  let rows := c.particles.length
  let cols := (c.particles.headI).length
  match Cloth.passesE c.stiffness c.xGap c.yGap rows cols JAKOBSEN_ITERATIONS c.particles with
  | Except.ok g => Except.ok { c with particles := g }
  | Except.error e => Except.error e

/-- One simulation tick of cloth.py's onStep: add_gravity, update,
jakobsen. -/
def Cloth.tickE (c : Cloth) : Except SimError Cloth :=
  Cloth.jakobsenE (Cloth.update (Cloth.add_gravity c))

/-- The Planet class of planet-orbit.py. -/
structure Planet where
  m : ℚ
  r : ℚ
  x : Vec
  f : Vec
  v : Vec
  xPrev : Vec

/-- Planet.__init__(x, v, m, r): previous position is seeded to x - v * DT. -/
def Planet.make (x v : Vec) (m r : ℚ) : Planet :=
  { m := m, r := r, x := x, f := ⟨0, 0⟩, v := v, xPrev := x - Vec.smul DT v }

/-- Planet.euler_update: v += a * DT, then x += v * DT with the new v. -/
def Planet.euler_update (p : Planet) : Planet :=
  let a := p.f.sdiv p.m
  let vNew := p.v + Vec.smul DT a
  { p with v := vNew, xPrev := p.x, x := p.x + Vec.smul DT vNew, f := ⟨0, 0⟩ }

/-- Planet.verlet_update: same Stoermer-Verlet step as Particle.update. -/
def Planet.verlet_update (p : Planet) : Planet :=
  let a := p.f.sdiv p.m
  let xNew := Vec.smul 2 p.x - p.xPrev + Vec.smul (DT * DT) a
  { p with x := xNew, xPrev := p.x, v := (xNew - p.x).sdiv DT, f := ⟨0, 0⟩ }

/-- Planet.add_gravity(p1, p2): pairwise inverse-square attraction, applied
equal and opposite.  Except.error marks exactly the coincident-body state
where the source divides by d_squared == 0. -/
def Planet.add_gravityE (p1 p2 : Planet) : Except SimError (Planet × Planet) :=
  let d := p2.x - p1.x
  let d_squared := Vec.dot d d
  if d_squared = 0 then Except.error SimError.degenerateSeparation
  else
    let d_hat := d.sdiv (Rat.sqrt d_squared)
    let f_g := planetG * p1.m * p2.m / d_squared
    Except.ok ({ p1 with f := p1.f + Vec.smul f_g d_hat },
      { p2 with f := p2.f - Vec.smul f_g d_hat })

/-- One onStep tick of planet-orbit.py in Verlet mode for a two-planet set:
the single pairwise gravity application, then both Verlet updates. -/
def verletStep2E (pq : Planet × Planet) : Except SimError (Planet × Planet) :=
  match Planet.add_gravityE pq.1 pq.2 with
  | Except.ok (q1, q2) => Except.ok (q1.verlet_update, q2.verlet_update)
  | Except.error e => Except.error e

/-- n Verlet ticks of the two-planet system. -/
def verletSteps2E : Nat → Planet × Planet → Except SimError (Planet × Planet)
  | 0, pq => Except.ok pq
  | Nat.succ n, pq =>
    match verletStep2E pq with
    | Except.ok pqNext => verletSteps2E n pqNext
    | Except.error e => Except.error e

/-- First planet of demo_config: position (230, 300), velocity (0, 65),
mass 250, radius 30. -/
def demoPlanet1 : Planet := Planet.make ⟨230, 300⟩ ⟨0, 65⟩ 250 30

/-- Second planet of demo_config: position (370, 300), velocity (0, -65),
mass 250, radius 30. -/
def demoPlanet2 : Planet := Planet.make ⟨370, 300⟩ ⟨0, -65⟩ 250 30

/-- Midpoint of the two planet positions. -/
def midpoint2 (pq : Planet × Planet) : Vec := Vec.smul (1 / 2) (pq.1.x + pq.2.x)

/-! Helper lemmas about list access, the exception-aware fold, and the shared
relaxation step. -/

lemma getq_some_lt {α : Type} : ∀ (l : List α) (i : Nat) (a : α),
    l.get? i = some a → i < l.length := by
  intro l
  induction l with
  | nil => intro i a h; simp [List.get?] at h
  | cons b t ih =>
    intro i a h
    cases i with
    | zero => simp
    | succ n =>
      simp only [List.get?] at h
      have := ih n a h
      simp only [List.length_cons]
      omega

lemma getq_set_same {α : Type} : ∀ (l : List α) (i : Nat) (a : α),
    i < l.length → (l.set i a).get? i = some a := by
  intro l
  induction l with
  | nil => intro i a h; simp at h
  | cons b t ih =>
    intro i a h
    cases i with
    | zero => rfl
    | succ n =>
      simp only [List.set, List.get?]
      exact ih n a (by simp only [List.length_cons] at h; omega)

lemma getq_set_other {α : Type} : ∀ (l : List α) (i j : Nat) (a : α),
    i ≠ j → (l.set i a).get? j = l.get? j := by
  intro l
  induction l with
  | nil => intro i j a _; rfl
  | cons b t ih =>
    intro i j a h
    cases i with
    | zero =>
      cases j with
      | zero => exact absurd rfl h
      | succ m => rfl
    | succ n =>
      cases j with
      | zero => rfl
      | succ m =>
        simp only [List.set, List.get?]
        exact ih n m a (by omega)

lemma set_getq_self {α : Type} : ∀ (l : List α) (i : Nat) (a : α),
    l.get? i = some a → l.set i a = l := by
  intro l
  induction l with
  | nil => intro i a h; simp [List.get?] at h
  | cons b t ih =>
    intro i a h
    cases i with
    | zero =>
      simp only [List.get?] at h
      injection h with h
      simp [List.set, h]
    | succ n =>
      simp only [List.get?] at h
      simp only [List.set]
      rw [ih n a h]

lemma getq_map {α β : Type} (f : α → β) : ∀ (l : List α) (i : Nat),
    (l.map f).get? i = (l.get? i).map f := by
  intro l
  induction l with
  | nil => intro i; rfl
  | cons b t ih =>
    intro i
    cases i with
    | zero => rfl
    | succ n => simpa using ih n

lemma foldE_preserve {α β : Type} (P : β → Prop) (f : β → α → Except SimError β)
    (hf : ∀ b a bNext, f b a = Except.ok bNext → P b → P bNext) :
    ∀ (l : List α) (b bEnd : β), foldE f b l = Except.ok bEnd → P b → P bEnd := by
  intro l
  induction l with
  | nil =>
    intro b bEnd h hb
    simp only [foldE] at h
    injection h with h
    rwa [← h]
  | cons a t ih =>
    intro b bEnd h hb
    simp only [foldE] at h
    cases hfa : f b a with
    | ok bNext =>
      rw [hfa] at h
      exact ih bNext bEnd h (hf b a bNext hfa hb)
    | error e =>
      rw [hfa] at h
      simp at h

lemma foldE_fix {α β : Type} (f : β → α → Except SimError β) (b : β)
    (hf : ∀ a, f b a = Except.ok b) : ∀ l : List α, foldE f b l = Except.ok b := by
  intro l
  induction l with
  | nil => rfl
  | cons a t ih =>
    simp only [foldE]
    rw [hf a]
    exact ih

lemma relaxPairE_both_fixed (st gap : ℚ) (v w : Particle)
    (hv : v.fixed = true) (hw : w.fixed = true) :
    relaxPairE st gap v w = Except.ok (v, w) := by
  simp [relaxPairE, hv, hw]

lemma relaxPairE_ok_cases (st gap : ℚ) (v w vN wN : Particle)
    (h : relaxPairE st gap v w = Except.ok (vN, wN)) :
    (v.fixed = true → vN = v) ∧ (w.fixed = true → wN = w) ∧
      vN.fixed = v.fixed ∧ wN.fixed = w.fixed ∧ vN.f = v.f ∧ wN.f = w.f := by
  simp only [relaxPairE] at h
  split at h
  · injection h with h
    injection h with h1 h2
    subst h1
    subst h2
    exact ⟨fun _ => rfl, fun _ => rfl, rfl, rfl, rfl, rfl⟩
  · rename_i hboth
    split at h
    · simp at h
    · split at h
      · rename_i hvf
        injection h with h
        injection h with h1 h2
        subst h1
        subst h2
        have hwf : w.fixed ≠ true := fun hw => hboth (by rw [hvf, hw]; rfl)
        exact ⟨fun _ => rfl, fun hw => absurd hw hwf, rfl, rfl, rfl, rfl⟩
      · split at h
        · rename_i hvf hwf
          injection h with h
          injection h with h1 h2
          subst h1
          subst h2
          exact ⟨fun hv => absurd hv hvf, fun _ => rfl, rfl, rfl, rfl, rfl⟩
        · rename_i hvf hwf
          injection h with h
          injection h with h1 h2
          subst h1
          subst h2
          exact ⟨fun hv => absurd hv hvf, fun hw => absurd hw hwf, rfl, rfl, rfl, rfl⟩

lemma relaxIndexE_pinned (st gap : ℚ) (ps psN : List Particle) (i : Nat)
    (h : Rope.relaxIndexE st gap ps i = Except.ok psN) (j : Nat) (p : Particle)
    (hj : ps.get? j = some p) (hp : p.fixed = true) : psN.get? j = some p := by
  unfold Rope.relaxIndexE at h
  cases hv : ps.get? i with
  | none =>
    rw [hv] at h
    simp at h
    rwa [← h]
  | some v =>
    cases hw : ps.get? (i + 1) with
    | none =>
      rw [hv, hw] at h
      simp at h
      rwa [← h]
    | some w =>
      simp only [hv, hw] at h
      cases hr : relaxPairE st gap v w with
      | error e =>
        simp only [hr] at h
        exact Except.noConfusion h
      | ok vw =>
        obtain ⟨vN, wN⟩ := vw
        simp only [hr] at h
        injection h with h
        subst h
        obtain ⟨hfv, hfw, _, _, _, _⟩ := relaxPairE_ok_cases st gap v w vN wN hr
        have hleni : i < ps.length := getq_some_lt ps i v hv
        by_cases hji : j = i
        · subst hji
          rw [hv] at hj
          injection hj with hj
          rw [getq_set_other (ps.set j vN) (j + 1) j wN (by omega)]
          rw [getq_set_same ps j vN hleni]
          rw [hfv (by rw [hj, hp])]
          rw [hj]
        · by_cases hji1 : j = i + 1
          · subst hji1
            rw [hw] at hj
            injection hj with hj
            have hlen1 : i + 1 < (ps.set i vN).length := by
              have := getq_some_lt ps (i + 1) w hw
              simpa using this
            rw [getq_set_same (ps.set i vN) (i + 1) wN hlen1]
            rw [hfw (by rw [hj, hp])]
            rw [hj]
          · rw [getq_set_other (ps.set i vN) (i + 1) j wN (by omega)]
            rw [getq_set_other ps i j vN (by omega)]
            exact hj

lemma passE_pinned (st gap : ℚ) (ps psN : List Particle)
    (h : Rope.passE st gap ps = Except.ok psN) (j : Nat) (p : Particle)
    (hj : ps.get? j = some p) (hp : p.fixed = true) : psN.get? j = some p :=
  foldE_preserve (fun l => l.get? j = some p) (Rope.relaxIndexE st gap)
    (fun b a bN hba hb => relaxIndexE_pinned st gap b bN a hba j p hb hp)
    (List.range (ps.length - 1)) ps psN h hj

lemma passesE_pinned : ∀ (n : Nat) (rp rpN : Rope), Rope.passesE n rp = Except.ok rpN →
    ∀ (j : Nat) (p : Particle), rp.particles.get? j = some p → p.fixed = true →
      rpN.particles.get? j = some p := by
  intro n
  induction n with
  | zero =>
    intro rp rpN h j p hj hp
    unfold Rope.passesE at h
    injection h with h
    rwa [← h]
  | succ k ih =>
    intro rp rpN h j p hj hp
    unfold Rope.passesE at h
    cases hps : Rope.passE rp.stiffness rp.gap rp.particles with
    | error e =>
      rw [hps] at h
      simp at h
    | ok ps1 =>
      rw [hps] at h
      exact ih { rp with particles := ps1 } rpN h j p (passE_pinned _ _ _ _ hps j p hj hp) hp

lemma passesE_fix (rp : Rope) (hfix : Rope.passE rp.stiffness rp.gap rp.particles = Except.ok rp.particles) :
    ∀ n : Nat, Rope.passesE n rp = Except.ok rp := by
  intro n
  induction n with
  | zero => rfl
  | succ k ih =>
    unfold Rope.passesE
    rw [hfix]
    exact ih

lemma rope_update_pinned (rp : Rope) (j : Nat) (p : Particle)
    (hj : rp.particles.get? j = some p) (hp : p.fixed = true) :
    (Rope.update rp).particles.get? j = some p := by
  simp only [Rope.update]
  rw [getq_map, hj]
  simp [hp]

lemma cloth_update_pinned (c : Cloth) (i j : Nat) (p : Particle)
    (hij : Cloth.getP c i j = some p) (hp : p.fixed = true) :
    Cloth.getP (Cloth.update c) i j = some p := by
  unfold Cloth.getP gridGet at hij ⊢
  simp only [Cloth.update]
  rw [getq_map]
  cases hrow : c.particles.get? i with
  | none => rw [hrow] at hij; simp at hij
  | some row =>
    rw [hrow] at hij
    simp only [Option.some_bind] at hij
    simp only [Option.map_some', Option.some_bind]
    rw [getq_map, hij]
    simp [hp]

lemma rope_add_gravity_pos (rp : Rope) (j : Nat) :
    ((Rope.add_gravity rp).particles.get? j).map Particle.x
      = (rp.particles.get? j).map Particle.x := by
  simp only [Rope.add_gravity]
  rw [getq_map]
  cases h : rp.particles.get? j with
  | none => rfl
  | some p =>
    simp only [Option.map_some']
    by_cases hp : p.fixed
    · simp [hp]
    · simp [hp, Particle.add_gravity]

lemma rope_setFixed_pos (rp : Rope) (i : Int) (j : Nat) :
    ((Rope.setFixed rp i).particles.get? j).map Particle.x
      = (rp.particles.get? j).map Particle.x := by
  unfold Rope.setFixed
  split
  · rfl
  · cases hq : rp.particles.get? i.toNat with
    | none => rfl
    | some p =>
      show ((rp.particles.set i.toNat { p with fixed := !p.fixed }).get? j).map Particle.x
        = (rp.particles.get? j).map Particle.x
      by_cases hji : j = i.toNat
      · subst hji
        rw [getq_set_same rp.particles i.toNat _ (getq_some_lt rp.particles i.toNat p hq), hq]
        rfl
      · rw [getq_set_other rp.particles i.toNat j _ (by omega)]

/-- Pinned particle of the concrete witness states (mass 5, radius 5, as the
apps construct). -/
def pinnedAt (pos : Vec) : Particle :=
  { m := 5, r := 5, x := pos, xPrev := pos, f := ⟨0, 0⟩, v := ⟨0, 0⟩, fixed := true }

/-- Concrete two-particle rope with both endpoints pinned, endpoints (0,0)
and (10,0), rest gap 10, stiffness 1. -/
def bothPinnedRope : Rope := ⟨[pinnedAt ⟨0, 0⟩, pinnedAt ⟨10, 0⟩], 10, 1⟩

lemma bothPinnedRope_pass :
    Rope.passE 1 10 bothPinnedRope.particles = Except.ok bothPinnedRope.particles := by
  have h01 : relaxPairE 1 10 (pinnedAt ⟨0, 0⟩) (pinnedAt ⟨10, 0⟩)
      = Except.ok (pinnedAt ⟨0, 0⟩, pinnedAt ⟨10, 0⟩) :=
    relaxPairE_both_fixed 1 10 _ _ rfl rfl
  show Rope.passE 1 10 [pinnedAt ⟨0, 0⟩, pinnedAt ⟨10, 0⟩]
    = Except.ok [pinnedAt ⟨0, 0⟩, pinnedAt ⟨10, 0⟩]
  unfold Rope.passE
  rw [show ([pinnedAt ⟨0, 0⟩, pinnedAt ⟨10, 0⟩] : List Particle).length - 1 = 1 from rfl]
  rw [show List.range 1 = [0] by simp [List.range_succ]]
  simp only [foldE, Rope.relaxIndexE, List.get?_cons_zero, List.get?_cons_succ, h01,
    List.set_cons_zero, List.set_cons_succ]

lemma bothPinnedRope_jakobsen : Rope.jakobsenE bothPinnedRope = Except.ok bothPinnedRope := by
  unfold Rope.jakobsenE
  exact passesE_fix bothPinnedRope bothPinnedRope_pass JAKOBSEN_ITERATIONS

lemma bothPinnedRope_jakobsenE : Rope.jakobsenE bothPinnedRope = Except.ok bothPinnedRope := by
  unfold Rope.jakobsenE
  exact passesE_fix bothPinnedRope bothPinnedRope_pass JAKOBSEN_ITERATIONS

/-- Claim C2: a particle whose pinned flag is set is left unchanged by the
integration step (Rope.update, Cloth.update) and by every pass of the
constraint solver (all JAKOBSEN_ITERATIONS passes of Rope.jakobsen, and the
shared per-constraint correction that is the body of Cloth.relax_constraint);
add_gravity and setFixed never change any particle position either, so among
the commands only setPosition can move a pinned particle. -/
theorem pinned_position_invariant :
    (∀ (rp : Rope) (j : Nat) (p : Particle), rp.particles.get? j = some p → p.fixed = true →
        (Rope.update rp).particles.get? j = some p)
    ∧ (∀ (rp rpN : Rope) (j : Nat) (p : Particle), Rope.jakobsenE rp = Except.ok rpN →
        rp.particles.get? j = some p → p.fixed = true → rpN.particles.get? j = some p)
    ∧ (∀ (st gap : ℚ) (v w vN wN : Particle), relaxPairE st gap v w = Except.ok (vN, wN) →
        (v.fixed = true → vN = v) ∧ (w.fixed = true → wN = w))
    ∧ (∀ (c : Cloth) (i j : Nat) (p : Particle), Cloth.getP c i j = some p → p.fixed = true →
        Cloth.getP (Cloth.update c) i j = some p)
    ∧ (∀ (rp : Rope) (j : Nat),
        ((Rope.add_gravity rp).particles.get? j).map Particle.x
          = (rp.particles.get? j).map Particle.x)
    ∧ (∀ (rp : Rope) (i : Int) (j : Nat),
        ((Rope.setFixed rp i).particles.get? j).map Particle.x
          = (rp.particles.get? j).map Particle.x) := by
  refine ⟨rope_update_pinned, ?_, ?_, cloth_update_pinned, rope_add_gravity_pos,
    rope_setFixed_pos⟩
  · intro rp rpN j p h hj hp
    exact passesE_pinned JAKOBSEN_ITERATIONS rp rpN h j p hj hp
  · intro st gap v w vN wN h
    obtain ⟨h1, h2, _, _, _, _⟩ := relaxPairE_ok_cases st gap v w vN wN h
    exact ⟨h1, h2⟩

/-- Witness for C2 at the concrete both-pinned two-particle rope: the
integration step and a full Jakobsen solve leave both pinned particles in
place. -/
theorem pinned_position_invariant_witness :
    (Rope.update bothPinnedRope).particles.get? 0 = some (pinnedAt ⟨0, 0⟩)
    ∧ bothPinnedRope.particles.get? 1 = some (pinnedAt ⟨10, 0⟩) := by
  constructor
  · exact pinned_position_invariant.1 bothPinnedRope 0 (pinnedAt ⟨0, 0⟩) rfl rfl
  · exact pinned_position_invariant.2.1 bothPinnedRope bothPinnedRope 1 (pinnedAt ⟨10, 0⟩)
      bothPinnedRope_jakobsenE rfl rfl

/-- Claim C9: setPosition and setFixed (togglePinned) with an out-of-range
index - negative or past the end, in either component for the cloth - return
the state unchanged, so every existing particle keeps its position, pinned
flag, accumulated force and mass; no error is raised (the embedded commands
are total). -/
theorem out_of_range_commands_noop :
    (∀ (rp : Rope) (i : Int) (pos : Vec), (i < 0 ∨ (rp.particles.length : Int) ≤ i) →
        Rope.setPosition rp i pos = rp ∧ Rope.setFixed rp i = rp)
    ∧ (∀ (c : Cloth) (i j : Int) (pos : Vec),
        (i < 0 ∨ (c.particles.length : Int) ≤ i ∨ j < 0
            ∨ ((c.particles.headI).length : Int) ≤ j) →
        Cloth.setPosition c i j pos = c ∧ Cloth.setFixed c i j = c) := by
  constructor
  · intro rp i pos h
    constructor
    · unfold Rope.setPosition
      rw [if_pos h]
    · unfold Rope.setFixed
      rw [if_pos h]
  · intro c i j pos h
    by_cases hi : i < 0 ∨ (c.particles.length : Int) ≤ i
    · constructor
      · unfold Cloth.setPosition
        rw [if_pos hi]
      · unfold Cloth.setFixed
        rw [if_pos hi]
    · have hj : j < 0 ∨ ((c.particles.headI).length : Int) ≤ j := by
        rcases h with h | h | h | h
        · exact absurd (Or.inl h) hi
        · exact absurd (Or.inr h) hi
        · exact Or.inl h
        · exact Or.inr h
      constructor
      · unfold Cloth.setPosition
        rw [if_neg hi, if_pos hj]
      · unfold Cloth.setFixed
        rw [if_neg hi, if_pos hj]

/-- Concrete 2 x 2 cloth used by witnesses, as built from corners (0,0) and
(10,10). -/
def demoCloth : Cloth := Cloth.make ⟨0, 0⟩ ⟨10, 10⟩ 2 5 5 1

/-- Witness for C9: index 5 (past the end) and index -1 on a two-particle
rope, and column 5 on a 2 x 2 cloth, are all silent no-ops. -/
theorem out_of_range_commands_noop_witness :
    Rope.setPosition bothPinnedRope 5 ⟨1, 1⟩ = bothPinnedRope
    ∧ Rope.setFixed bothPinnedRope (-1) = bothPinnedRope
    ∧ Cloth.setPosition demoCloth 0 5 ⟨1, 1⟩ = demoCloth
    ∧ Cloth.setFixed demoCloth 0 5 = demoCloth := by
  refine ⟨?_, ?_, ?_, ?_⟩
  · exact (out_of_range_commands_noop.1 bothPinnedRope 5 ⟨1, 1⟩
      (Or.inr (by decide))).1
  · exact (out_of_range_commands_noop.1 bothPinnedRope (-1) ⟨1, 1⟩ (Or.inl (by norm_num))).2
  · exact (out_of_range_commands_noop.2 demoCloth 0 5 ⟨1, 1⟩
      (Or.inr (Or.inr (Or.inr (by decide))))).1
  · exact (out_of_range_commands_noop.2 demoCloth 0 5 ⟨1, 1⟩
      (Or.inr (Or.inr (Or.inr (by decide))))).2

/-- Claim C10: a Planet constructed with position x and velocity v is seeded
with xPrev = x - v * DT and zero accumulated force, so the Verlet-derived
velocity (x - xPrev) / DT equals v, and a first zero-force Verlet step lands
on exactly x + v * DT - the same position a zero-force Euler step from the
same state produces. -/
theorem planet_seed_verlet_euler_agree (x v : Vec) (m r : ℚ) :
    (Planet.make x v m r).f = ⟨0, 0⟩
    ∧ ((Planet.make x v m r).x - (Planet.make x v m r).xPrev).sdiv DT = v
    ∧ ((Planet.make x v m r).verlet_update).x = x + Vec.smul DT v
    ∧ ((Planet.make x v m r).euler_update).x = x + Vec.smul DT v := by
  refine ⟨rfl, ?_, ?_, ?_⟩
  · ext <;> simp [Planet.make, DT] <;> ring
  · ext <;> simp [Planet.make, Planet.verlet_update, DT] <;> ring
  · ext <;> simp [Planet.make, Planet.euler_update, DT] <;> ring

/-- Claim C4 (amended): Chain and Grid construction never fail - neither
constructor contains a raise site (the count < 2 spacing division is numpy
float division, which emits a warning and produces a non-finite value rather
than raising) - and the entity is always created, with exactly count
particles for the rope and a count x count grid for the cloth, for every
count including 0 and 1. -/
theorem construction_below_two_succeeds (s e : Vec) (n : Nat) (r m st : ℚ) :
    (Rope.make s e n r m st).particles.length = n
    ∧ (Cloth.make s e n r m st).particles.length = n
    ∧ (Cloth.make s e n r m st).particles.map List.length = List.replicate n n := by
  refine ⟨?_, ?_, ?_⟩
  · simp only [Rope.make, List.length_map, List.length_range]
  · simp only [Cloth.make, List.length_map, List.length_range]
  · simp only [Cloth.make, List.map_map]
    rw [List.eq_replicate_iff]
    constructor
    · simp only [List.length_map, List.length_range]
    · intro b hb
      simp only [List.mem_map, List.mem_range, Function.comp] at hb
      obtain ⟨i, _, hi⟩ := hb
      rw [← hi]
      simp only [List.length_map, List.length_range]

/-- Claim C4 counterexample: constructing a one-particle rope and a 1 x 1
cloth (count = 1 < 2) succeeds and creates the entity with its particle,
where the claim requires an InvalidConfiguration failure with no entity
created. -/
theorem construction_one_particle_created :
    (Rope.make ⟨0, 0⟩ ⟨0, 4⟩ 1 5 5 1).particles.length = 1
    ∧ (Cloth.make ⟨0, 0⟩ ⟨0, 4⟩ 1 5 5 1).particles.length = 1 := by
  constructor
  · simp only [Rope.make, List.length_map, List.length_range]
  · simp only [Cloth.make, List.length_map, List.length_range]

/-- Claim C5 evaluation at the failing input: for start (10, 0),
end (0, 10), sideCount 2 the constructed grid's particles sit at x in
{10, 20} - mirrored across the start corner - although the bounding
rectangle of start and end has x range [0, 10]; in particular no particle
sits at the bounding-rectangle corner (0, 10). -/
theorem cloth_grid_mirrored :
    ((Cloth.make ⟨10, 0⟩ ⟨0, 10⟩ 2 5 5 1).getP 0 0).map Particle.x = some ⟨10, 0⟩
    ∧ ((Cloth.make ⟨10, 0⟩ ⟨0, 10⟩ 2 5 5 1).getP 0 1).map Particle.x = some ⟨10, 10⟩
    ∧ ((Cloth.make ⟨10, 0⟩ ⟨0, 10⟩ 2 5 5 1).getP 1 0).map Particle.x = some ⟨20, 0⟩
    ∧ ((Cloth.make ⟨10, 0⟩ ⟨0, 10⟩ 2 5 5 1).getP 1 1).map Particle.x = some ⟨20, 10⟩ := by
  refine ⟨?_, ?_, ?_, ?_⟩ <;>
    simp [Cloth.make, Cloth.getP, gridGet, Particle.make, List.range_succ] <;>
    norm_num

/-- Free (unpinned) particle at a given position with a given mass,
radius 5. -/
def freePartM (pos : Vec) (m : ℚ) : Particle :=
  { m := m, r := 5, x := pos, xPrev := pos, f := ⟨0, 0⟩, v := ⟨0, 0⟩, fixed := false }

/-- Free particle at a given position with the apps' default mass 5. -/
def freeAt (pos : Vec) : Particle := freePartM pos 5

lemma sqrtQ_zero : Rat.sqrt 0 = 0 := sqrtQ_of_sq 0 0 le_rfl (by norm_num)

/-- Claim C1 (amended): only the both-pinned case of the relaxation step is
skipped.  When two constraint endpoints that are not both pinned, or two
gravitating bodies, occupy exactly the same position, the computation is not
skipped: the source divides by zero (r_mag == 0, respectively
d_squared == 0), modelled as the DegenerateSeparation failure, instead of
leaving the state unchanged for that tick. -/
theorem degenerate_not_skipped :
    (∀ (st gap : ℚ) (v w : Particle), ¬(v.fixed = true ∧ w.fixed = true) → v.x = w.x →
        relaxPairE st gap v w = Except.error SimError.degenerateSeparation)
    ∧ (∀ p1 p2 : Planet, p1.x = p2.x →
        Planet.add_gravityE p1 p2 = Except.error SimError.degenerateSeparation)
    ∧ (∀ (st gap : ℚ) (v w : Particle), v.fixed = true → w.fixed = true →
        relaxPairE st gap v w = Except.ok (v, w)) := by
  refine ⟨?_, ?_, ?_⟩
  · intro st gap v w hb hx
    have hand : (v.fixed && w.fixed) ≠ true := by
      intro hEq
      rw [Bool.and_eq_true] at hEq
      exact hb hEq
    have hdot : (w.x.x - v.x.x) * (w.x.x - v.x.x) + (w.x.y - v.x.y) * (w.x.y - v.x.y) = 0 := by
      rw [← hx]
      ring
    have hs : Rat.sqrt ((w.x.x - v.x.x) * (w.x.x - v.x.x) + (w.x.y - v.x.y) * (w.x.y - v.x.y)) = 0 := by
      rw [hdot]
      exact sqrtQ_zero
    simp [relaxPairE, hand, hs]
  · intro p1 p2 hx
    have hdot : (p2.x.x - p1.x.x) * (p2.x.x - p1.x.x) + (p2.x.y - p1.x.y) * (p2.x.y - p1.x.y) = 0 := by
      rw [← hx]
      ring
    simp [Planet.add_gravityE, hdot]
  · intro st gap v w hv hw
    exact relaxPairE_both_fixed st gap v w hv hw

/-- Witness for C1: a free-pinned coincident pair and a coincident planet
pair both fail with DegenerateSeparation, while a both-pinned constraint is
skipped unchanged. -/
theorem degenerate_not_skipped_witness :
    relaxPairE 1 5 (freeAt ⟨3, 4⟩) (pinnedAt ⟨3, 4⟩) = Except.error SimError.degenerateSeparation
    ∧ Planet.add_gravityE demoPlanet1 demoPlanet1 = Except.error SimError.degenerateSeparation
    ∧ relaxPairE 1 5 (pinnedAt ⟨0, 0⟩) (pinnedAt ⟨9, 9⟩)
        = Except.ok (pinnedAt ⟨0, 0⟩, pinnedAt ⟨9, 9⟩) := by
  refine ⟨?_, ?_, ?_⟩
  · exact degenerate_not_skipped.1 1 5 (freeAt ⟨3, 4⟩) (pinnedAt ⟨3, 4⟩)
      (by simp [freeAt, freePartM]) rfl
  · exact degenerate_not_skipped.2.1 demoPlanet1 demoPlanet1 rfl
  · exact degenerate_not_skipped.2.2 1 5 (pinnedAt ⟨0, 0⟩) (pinnedAt ⟨9, 9⟩) rfl rfl

/-- Claim C1 counterexample: two coincident FREE constraint endpoints at
(1, 2), and two coincident planets, make the computation fail with the
division-by-zero marker instead of being detected and skipped with the state
left unchanged. -/
theorem coincident_endpoints_divide_by_zero :
    relaxPairE 1 10 (freeAt ⟨1, 2⟩) (freeAt ⟨1, 2⟩) = Except.error SimError.degenerateSeparation
    ∧ Planet.add_gravityE (Planet.make ⟨1, 2⟩ ⟨0, 0⟩ 250 30) (Planet.make ⟨1, 2⟩ ⟨0, 0⟩ 250 30)
        = Except.error SimError.degenerateSeparation := by
  constructor
  · simp [relaxPairE, freeAt, freePartM, sqrtQ_zero]
  · simp [Planet.add_gravityE, Planet.make]

/-- Claim C7: in a single correction step of a free-free constraint with
distinct endpoint positions, the displacement applied to each endpoint
scales with its inverse mass: the squared displacement magnitudes satisfy
m1^2 |d1|^2 = m2^2 |d2|^2, equivalently |d1|^2 = (m2 / m1)^2 |d2|^2, so the
lighter particle's displacement magnitude exceeds the heavier's by exactly
the factor m2 / m1. -/
theorem relax_inverse_mass_weighting (st gap : ℚ) (v w vN wN : Particle)
    (hv : v.fixed = false) (hw : w.fixed = false)
    (hmv : 0 < v.m) (hmw : 0 < w.m) (hne : v.m ≠ w.m)
    (hok : relaxPairE st gap v w = Except.ok (vN, wN)) :
    v.m ^ 2 * Vec.dot (vN.x - v.x) (vN.x - v.x) = w.m ^ 2 * Vec.dot (wN.x - w.x) (wN.x - w.x)
    ∧ Vec.dot (vN.x - v.x) (vN.x - v.x)
        = (w.m / v.m) ^ 2 * Vec.dot (wN.x - w.x) (wN.x - w.x) := by
  simp [relaxPairE, hv, hw] at hok
  split at hok
  · exact absurd hok (by simp)
  · injection hok with hok
    injection hok with h1 h2
    subst h1
    subst h2
    constructor
    · simp
      field_simp
      ring
    · simp
      field_simp
      ring

lemma relax_c7_eval :
    relaxPairE 1 5 (freePartM ⟨0, 0⟩ 1) (freePartM ⟨10, 0⟩ 2)
      = Except.ok ({ freePartM ⟨0, 0⟩ 1 with x := ⟨5/2, 0⟩ },
          { freePartM ⟨10, 0⟩ 2 with x := ⟨35/4, 0⟩ }) := by
  have h10 : Rat.sqrt ((10 : ℚ) * 10) = 10 := sqrtQ_of_sq 10 _ (by norm_num) rfl
  simp [relaxPairE, freePartM, JAKOBSEN_ITERATIONS, h10]
  norm_num [Vec.ext_iff]

/-- Witness for C7 at masses 1 and 2, endpoints (0,0) and (10,0), rest gap 5,
stiffness 1: the lighter endpoint moves 5/2 while the heavier moves 5/4, a
factor of exactly 2/1 = m2/m1 in magnitude. -/
theorem relax_inverse_mass_weighting_witness :
    Vec.dot ((⟨5/2, 0⟩ : Vec) - ⟨0, 0⟩) ((⟨5/2, 0⟩ : Vec) - ⟨0, 0⟩)
      = ((2 : ℚ) / 1) ^ 2 * Vec.dot ((⟨35/4, 0⟩ : Vec) - ⟨10, 0⟩) ((⟨35/4, 0⟩ : Vec) - ⟨10, 0⟩) := by
  have h := (relax_inverse_mass_weighting 1 5 (freePartM ⟨0, 0⟩ 1) (freePartM ⟨10, 0⟩ 2)
    { freePartM ⟨0, 0⟩ 1 with x := ⟨5/2, 0⟩ } { freePartM ⟨10, 0⟩ 2 with x := ⟨35/4, 0⟩ }
    rfl rfl (by norm_num [freePartM]) (by norm_num [freePartM]) (by norm_num [freePartM])
    relax_c7_eval).2
  exact h

/-- Conserved quantities of the demo two-planet system: position sum,
previous-position sum, force sum, and both masses. -/
def pairInv (pq : Planet × Planet) : Prop :=
  pq.1.x + pq.2.x = ⟨600, 600⟩ ∧ pq.1.xPrev + pq.2.xPrev = ⟨600, 600⟩
    ∧ pq.1.f + pq.2.f = ⟨0, 0⟩ ∧ pq.1.m = 250 ∧ pq.2.m = 250

lemma add_gravityE_ok_sum (p1 p2 q1 q2 : Planet)
    (h : Planet.add_gravityE p1 p2 = Except.ok (q1, q2)) :
    q1.f + q2.f = p1.f + p2.f ∧ q1.x = p1.x ∧ q2.x = p2.x ∧ q1.xPrev = p1.xPrev
      ∧ q2.xPrev = p2.xPrev ∧ q1.m = p1.m ∧ q2.m = p2.m := by
  simp only [Planet.add_gravityE] at h
  split at h
  · exact Except.noConfusion h
  · injection h with h
    injection h with h1 h2
    subst h1
    subst h2
    refine ⟨?_, rfl, rfl, rfl, rfl, rfl, rfl⟩
    ext <;> simp
    all_goals ring

lemma verletStep2E_inv (pq pqN : Planet × Planet)
    (h : verletStep2E pq = Except.ok pqN) (hinv : pairInv pq) : pairInv pqN := by
  obtain ⟨hx, hxp, hf, hm1, hm2⟩ := hinv
  have hx1 : pq.1.x.x + pq.2.x.x = 600 := by rw [← Vec.add_x, hx]
  have hx2 : pq.1.x.y + pq.2.x.y = 600 := by rw [← Vec.add_y, hx]
  have hxp1 : pq.1.xPrev.x + pq.2.xPrev.x = 600 := by rw [← Vec.add_x, hxp]
  have hxp2 : pq.1.xPrev.y + pq.2.xPrev.y = 600 := by rw [← Vec.add_y, hxp]
  have hf1 : pq.1.f.x + pq.2.f.x = 0 := by rw [← Vec.add_x, hf]
  have hf2 : pq.1.f.y + pq.2.f.y = 0 := by rw [← Vec.add_y, hf]
  unfold verletStep2E at h
  cases hg : Planet.add_gravityE pq.1 pq.2 with
  | error e =>
    simp only [hg] at h
    exact Except.noConfusion h
  | ok qq =>
    obtain ⟨q1, q2⟩ := qq
    simp only [hg] at h
    injection h with h
    subst h
    obtain ⟨hfs, hq1x, hq2x, hq1p, hq2p, hq1m, hq2m⟩ := add_gravityE_ok_sum pq.1 pq.2 q1 q2 hg
    have hfx : q1.f.x + q2.f.x = 0 := by
      have hc : q1.f.x + q2.f.x = pq.1.f.x + pq.2.f.x := by rw [← Vec.add_x, ← Vec.add_x, hfs]
      exact hc.trans hf1
    have hfy : q1.f.y + q2.f.y = 0 := by
      have hc : q1.f.y + q2.f.y = pq.1.f.y + pq.2.f.y := by rw [← Vec.add_y, ← Vec.add_y, hfs]
      exact hc.trans hf2
    unfold pairInv Planet.verlet_update
    refine ⟨?_, ?_, ?_, ?_, ?_⟩
    · ext
      · simp
        rw [hq1x, hq2x, hq1p, hq2p, hq1m, hq2m, hm1, hm2]
        linear_combination (2 : ℚ) * hx1 - hxp1 + (DT * DT / 250) * hfx
      · simp
        rw [hq1x, hq2x, hq1p, hq2p, hq1m, hq2m, hm1, hm2]
        linear_combination (2 : ℚ) * hx2 - hxp2 + (DT * DT / 250) * hfy
    · show q1.x + q2.x = ⟨600, 600⟩
      rw [hq1x, hq2x]
      exact hx
    · show (⟨0, 0⟩ : Vec) + ⟨0, 0⟩ = ⟨0, 0⟩
      ext <;> simp
    · show q1.m = 250
      rw [hq1m, hm1]
    · show q2.m = 250
      rw [hq2m, hm2]

lemma verletSteps2E_inv : ∀ (n : Nat) (pq pqN : Planet × Planet),
    verletSteps2E n pq = Except.ok pqN → pairInv pq → pairInv pqN := by
  intro n
  induction n with
  | zero =>
    intro pq pqN h hinv
    unfold verletSteps2E at h
    injection h with h
    rwa [← h]
  | succ k ih =>
    intro pq pqN h hinv
    unfold verletSteps2E at h
    cases hs : verletStep2E pq with
    | error e =>
      rw [hs] at h
      exact Except.noConfusion h
    | ok pq1 =>
      rw [hs] at h
      exact ih pq1 pqN h (verletStep2E_inv pq pq1 hs hinv)

/-- Claim C8: for the demo configuration - equal masses 250 at (230, 300)
and (370, 300) with velocities (0, 65) and (0, -65) - stepped any number of
times under the Verlet integrator (each tick applying the single pairwise,
exactly equal-and-opposite gravity force and then both Verlet updates), the
midpoint of the two positions stays exactly (300, 300). -/
theorem demo_pair_midpoint_invariant (n : Nat) (pq : Planet × Planet)
    (h : verletSteps2E n (demoPlanet1, demoPlanet2) = Except.ok pq) :
    midpoint2 pq = ⟨300, 300⟩ := by
  have hinv0 : pairInv (demoPlanet1, demoPlanet2) := by
    unfold pairInv demoPlanet1 demoPlanet2 Planet.make
    refine ⟨?_, ?_, ?_, rfl, rfl⟩ <;> (ext <;> simp [DT] <;> norm_num)
  obtain ⟨hx, _, _, _, _⟩ := verletSteps2E_inv n (demoPlanet1, demoPlanet2) pq h hinv0
  unfold midpoint2
  rw [hx]
  ext <;> simp <;> norm_num
/-- Witness for C8: at step count 0 the demo pair is returned unchanged and
its midpoint is (300, 300). -/
theorem demo_pair_midpoint_invariant_witness :
    midpoint2 (demoPlanet1, demoPlanet2) = ⟨300, 300⟩ :=
  demo_pair_midpoint_invariant 0 (demoPlanet1, demoPlanet2) rfl

lemma gridSet_self (g : Grid) (i j : Nat) (p : Particle)
    (h : gridGet g i j = some p) : gridSet g i j p = g := by
  unfold gridGet at h
  unfold gridSet
  cases hrow : g.get? i with
  | none => rfl
  | some row =>
    rw [hrow] at h
    simp only [Option.some_bind] at h
    show g.set i (row.set j p) = g
    rw [set_getq_self row j p h]
    exact set_getq_self g i row hrow

lemma relaxAtE_allFixed (st gap : ℚ) (g : Grid)
    (hall : ∀ i j p, gridGet g i j = some p → p.fixed = true) (i1 j1 i2 j2 : Nat) :
    Cloth.relaxAtE st gap g i1 j1 i2 j2 = Except.ok g := by
  unfold Cloth.relaxAtE
  cases h1 : gridGet g i1 j1 with
  | none =>
    cases h2 : gridGet g i2 j2 <;> rfl
  | some v =>
    cases h2 : gridGet g i2 j2 with
    | none => rfl
    | some w =>
      simp only [relaxPairE_both_fixed st gap v w (hall i1 j1 v h1) (hall i2 j2 w h2)]
      rw [gridSet_self g i1 j1 v h1, gridSet_self g i2 j2 w h2]

lemma sweepE_allFixed (st xg yg : ℚ) (rows cols : Nat) (g : Grid)
    (hall : ∀ i j p, gridGet g i j = some p → p.fixed = true) :
    Cloth.sweepE st xg yg rows cols g = Except.ok g := by
  unfold Cloth.sweepE
  have hv := foldE_fix
    (fun gCur ij => Cloth.relaxAtE st yg gCur ij.1 ij.2 (ij.1 + 1) ij.2) g
    (fun ij => relaxAtE_allFixed st yg g hall ij.1 ij.2 (ij.1 + 1) ij.2)
    (vertPairs rows cols)
  simp only [hv]
  exact foldE_fix _ g
    (fun ij => relaxAtE_allFixed st xg g hall ij.1 ij.2 ij.1 (ij.2 + 1))
    (horizPairs rows cols)

lemma passesE_allFixed (st xg yg : ℚ) (rows cols : Nat) (g : Grid)
    (hall : ∀ i j p, gridGet g i j = some p → p.fixed = true) :
    ∀ n : Nat, Cloth.passesE st xg yg rows cols n g = Except.ok g := by
  intro n
  induction n with
  | zero => rfl
  | succ k ih =>
    unfold Cloth.passesE
    rw [sweepE_allFixed st xg yg rows cols g hall]
    exact ih

lemma jakobsenE_allFixed (c : Cloth)
    (hall : ∀ i j p, gridGet c.particles i j = some p → p.fixed = true) :
    Cloth.jakobsenE c = Except.ok c := by
  unfold Cloth.jakobsenE
  simp only [passesE_allFixed c.stiffness c.xGap c.yGap c.particles.length
    (c.particles.headI).length c.particles hall JAKOBSEN_ITERATIONS]

/-- All-pinned particle of the C3 failing input, carrying accumulated
force f. -/
def pinnedF (pos f : Vec) : Particle :=
  { m := 5, r := 5, x := pos, xPrev := pos, f := f, v := ⟨0, 0⟩, fixed := true }

/-- The C3 failing input: a 2 x 2 cloth with corners (0,0) and (10,10),
radius 5, mass 5, stiffness 1, all four particles pinned, forces zero. -/
def cloth4 : Cloth :=
  { particles := [[pinnedF ⟨0, 0⟩ ⟨0, 0⟩, pinnedF ⟨0, 10⟩ ⟨0, 0⟩],
      [pinnedF ⟨10, 0⟩ ⟨0, 0⟩, pinnedF ⟨10, 10⟩ ⟨0, 0⟩]],
    xGap := 10, yGap := 10, stiffness := 1 }

/-- The state cloth4 reaches after one tick: positions unchanged, every
accumulated force grown to (0, 5000) = m * G * (0, 1) and never reset. -/
def cloth4After : Cloth :=
  { particles := [[pinnedF ⟨0, 0⟩ ⟨0, 5000⟩, pinnedF ⟨0, 10⟩ ⟨0, 5000⟩],
      [pinnedF ⟨10, 0⟩ ⟨0, 5000⟩, pinnedF ⟨10, 10⟩ ⟨0, 5000⟩]],
    xGap := 10, yGap := 10, stiffness := 1 }

lemma cloth4_add_gravity : Cloth.add_gravity cloth4 = cloth4After := by
  unfold Cloth.add_gravity cloth4 cloth4After
  simp only [List.map_cons, List.map_nil]
  norm_num [Particle.add_gravity, pinnedF, ropeG, Vec.ext_iff]

lemma cloth4After_update : Cloth.update cloth4After = cloth4After := by
  unfold Cloth.update cloth4After
  simp [pinnedF]

lemma cloth4After_allFixed :
    ∀ i j p, gridGet cloth4After.particles i j = some p → p.fixed = true := by
  intro i j p h
  unfold cloth4After gridGet at h
  match i, j with
  | 0, 0 => simp at h; rw [← h]; rfl
  | 0, 1 => simp at h; rw [← h]; rfl
  | 0, Nat.succ (Nat.succ j) => simp [List.get?] at h
  | 1, 0 => simp at h; rw [← h]; rfl
  | 1, 1 => simp at h; rw [← h]; rfl
  | 1, Nat.succ (Nat.succ j) => simp [List.get?] at h
  | Nat.succ (Nat.succ i), j => simp [List.get?] at h

/-- Claim C3 evaluation at the failing input: after one full tick
(add_gravity, update, jakobsen) on the all-pinned 2 x 2 cloth, the pinned
particle at grid index (0, 0) still carries the accumulated force (0, 5000)
into the next tick - cloth.py's add_gravity applies force to pinned
particles and Cloth.update never resets them, so the force is not reset to
zero once per tick as the claim requires. -/
theorem cloth_pinned_force_accumulates :
    Cloth.tickE cloth4 = Except.ok cloth4After
    ∧ (Cloth.getP cloth4After 0 0).map Particle.f = some ⟨0, 5000⟩
    ∧ (Cloth.getP cloth4After 0 0).map Particle.f ≠ some ⟨0, 0⟩ := by
  refine ⟨?_, rfl, ?_⟩
  · unfold Cloth.tickE
    rw [cloth4_add_gravity, cloth4After_update]
    exact jakobsenE_allFixed cloth4After cloth4After_allFixed
  · show some ((pinnedF ⟨0, 0⟩ ⟨0, 5000⟩).f) ≠ some ⟨0, 0⟩
    simp [pinnedF, Vec.ext_iff]

lemma relaxPairE_pinned_free (st gap : ℚ) (v w : Particle)
    (hv : v.fixed = true) (hw : w.fixed = false)
    (hnz : Rat.sqrt (Vec.dot (w.x - v.x) (w.x - v.x)) ≠ 0) :
    relaxPairE st gap v w = Except.ok (v, { w with
      x := w.x - Vec.smul ((1 - (1 - st) ^ JAKOBSEN_ITERATIONS) / w.m *
          (Rat.sqrt (Vec.dot (w.x - v.x) (w.x - v.x)) - gap))
        ((w.x - v.x).sdiv (Rat.sqrt (Vec.dot (w.x - v.x) (w.x - v.x)))) }) := by
  simp only [Vec.dot_def, Vec.sub_x, Vec.sub_y] at hnz
  simp [relaxPairE, hv, hw, hnz]

/-- One relaxation pass on a two-particle chain whose first particle is
pinned at the origin and whose free particle sits at (s, 0) with s > 0: the
free particle moves to (s - (s - gap) / m, 0). -/
lemma passE_two_pos (gap s : ℚ) (w : Particle)
    (hw : w.fixed = false) (hwx : w.x = ⟨s, 0⟩) (hs : 0 < s) :
    Rope.passE 1 gap [pinnedAt ⟨0, 0⟩, w]
      = Except.ok [pinnedAt ⟨0, 0⟩, { w with x := ⟨s - (s - gap) / w.m, 0⟩ }] := by
  have hss : Rat.sqrt (Vec.dot (w.x - (pinnedAt ⟨0, 0⟩).x) (w.x - (pinnedAt ⟨0, 0⟩).x)) = s := by
    rw [hwx]
    apply sqrtQ_of_sq s _ hs.le
    simp [Vec.dot, pinnedAt]
  have hrel := relaxPairE_pinned_free 1 gap (pinnedAt ⟨0, 0⟩) w rfl hw
    (by rw [hss]; exact hs.ne')
  rw [hss] at hrel
  have hvec : w.x - Vec.smul ((1 - (1 - (1:ℚ)) ^ JAKOBSEN_ITERATIONS) / w.m * (s - gap))
      ((w.x - (pinnedAt ⟨0, 0⟩).x).sdiv s) = ⟨s - (s - gap) / w.m, 0⟩ := by
    rw [hwx]
    ext
    · show s - (1 - (1 - (1:ℚ)) ^ JAKOBSEN_ITERATIONS) / w.m * (s - gap) * ((s - 0) / s)
        = s - (s - gap) / w.m
      rw [show (1 - (1:ℚ)) = 0 from by norm_num]
      rw [zero_pow (by decide : JAKOBSEN_ITERATIONS ≠ 0)]
      rw [show ((s:ℚ) - 0) / s = 1 from by rw [sub_zero]; exact div_self hs.ne']
      ring
    · show (0:ℚ) - (1 - (1 - (1:ℚ)) ^ JAKOBSEN_ITERATIONS) / w.m * (s - gap) * ((0 - 0) / s) = 0
      ring
  rw [hvec] at hrel
  unfold Rope.passE
  rw [show List.range ([pinnedAt ⟨0, 0⟩, w].length - 1) = [0] from rfl]
  simp only [foldE, Rope.relaxIndexE, List.get?_cons_zero, List.get?_cons_succ, hrel,
    List.set_cons_zero, List.set_cons_succ]

/-- One relaxation pass on the same chain with the free particle at (s, 0),
s < 0: r_hat is (-1, 0) and the free particle moves to
(s + (-s - gap) / m, 0). -/
lemma passE_two_neg (gap s : ℚ) (w : Particle)
    (hw : w.fixed = false) (hwx : w.x = ⟨s, 0⟩) (hs : s < 0) :
    Rope.passE 1 gap [pinnedAt ⟨0, 0⟩, w]
      = Except.ok [pinnedAt ⟨0, 0⟩, { w with x := ⟨s + (-s - gap) / w.m, 0⟩ }] := by
  have hss : Rat.sqrt (Vec.dot (w.x - (pinnedAt ⟨0, 0⟩).x) (w.x - (pinnedAt ⟨0, 0⟩).x)) = -s := by
    rw [hwx]
    apply sqrtQ_of_sq (-s) _ (by linarith)
    simp [Vec.dot, pinnedAt]
    all_goals ring
  have hrel := relaxPairE_pinned_free 1 gap (pinnedAt ⟨0, 0⟩) w rfl hw
    (by rw [hss]; intro hc; linarith [neg_eq_zero.mp hc])
  rw [hss] at hrel
  have hvec : w.x - Vec.smul ((1 - (1 - (1:ℚ)) ^ JAKOBSEN_ITERATIONS) / w.m * (-s - gap))
      ((w.x - (pinnedAt ⟨0, 0⟩).x).sdiv (-s)) = ⟨s + (-s - gap) / w.m, 0⟩ := by
    rw [hwx]
    ext
    · show s - (1 - (1 - (1:ℚ)) ^ JAKOBSEN_ITERATIONS) / w.m * (-s - gap) * ((s - 0) / -s)
        = s + (-s - gap) / w.m
      rw [show (1 - (1:ℚ)) = 0 from by norm_num]
      rw [zero_pow (by decide : JAKOBSEN_ITERATIONS ≠ 0)]
      rw [show ((s:ℚ) - 0) / -s = -1 from by
        rw [sub_zero, div_neg, div_self (by linarith : s ≠ 0)]]
      ring
    · show (0:ℚ) - (1 - (1 - (1:ℚ)) ^ JAKOBSEN_ITERATIONS) / w.m * (-s - gap) * ((0 - 0) / -s) = 0
      ring
  rw [hvec] at hrel
  unfold Rope.passE
  rw [show List.range ([pinnedAt ⟨0, 0⟩, w].length - 1) = [0] from rfl]
  simp only [foldE, Rope.relaxIndexE, List.get?_cons_zero, List.get?_cons_succ, hrel,
    List.set_cons_zero, List.set_cons_succ]

/-- Two-particle chain: first particle pinned at the origin, free particle
of mass m at (s0, 0), rest length L, stiffness 1 (as the app constructs). -/
def twoChain (L s0 m : ℚ) : Rope :=
  ⟨[pinnedAt ⟨0, 0⟩, freePartM ⟨s0, 0⟩ m], L, 1⟩

lemma passesE_two (L m : ℚ) (hL : 0 < L) (hm : 1 ≤ m) :
    ∀ (n : Nat) (w : Particle) (s : ℚ), w.fixed = false → w.m = m → w.x = ⟨s, 0⟩ → 0 < s →
      Rope.passesE n ⟨[pinnedAt ⟨0, 0⟩, w], L, 1⟩
        = Except.ok ⟨[pinnedAt ⟨0, 0⟩,
            { w with x := ⟨L + (s - L) * (1 - 1/m) ^ n, 0⟩ }], L, 1⟩ := by
  have hmpos : (0:ℚ) < m := lt_of_lt_of_le one_pos hm
  intro n
  induction n with
  | zero =>
    intro w s hw hwm hwx hs
    have hxx : (⟨L + (s - L) * (1 - 1/m) ^ 0, 0⟩ : Vec) = w.x := by
      rw [hwx]
      ext <;> simp
    unfold Rope.passesE
    rw [hxx]
  | succ k ih =>
    intro w s hw hwm hwx hs
    have hs1pos : 0 < s - (s - L) / m := by
      rcases le_or_lt L s with hc | hc
      · have h1 : (s - L) / m ≤ s - L := by
          apply div_le_self (by linarith) hm
        linarith
      · have h1 : (s - L) / m < 0 := div_neg_of_neg_of_pos (by linarith) hmpos
        linarith
    have hcollapse : ({ w with x := ⟨s - (s - L) / w.m, 0⟩ } : Particle)
        = { w with x := ⟨s - (s - L) / m, 0⟩ } := by
      rw [hwm]
    simp only [Rope.passesE]
    simp only [passE_two_pos L s w hw hwx hs, hcollapse]
    have hstep := ih { w with x := ⟨s - (s - L) / m, 0⟩ } (s - (s - L) / m) hw hwm rfl hs1pos
    rw [hstep]
    have hsn : L + (s - (s - L) / m - L) * (1 - 1/m) ^ k = L + (s - L) * (1 - 1/m) ^ (k + 1) := by
      have hm0 : m ≠ 0 := hmpos.ne'
      rw [pow_succ]
      field_simp
      ring
    rw [hsn]

/-- Claim C6 (amended): for a two-particle chain with one endpoint pinned,
rest length L > 0, stiffness 1, free endpoint initially at any distinct
separation s0 > 0, and free-endpoint mass m >= 1, the free endpoint's
distance from the pinned endpoint comes within 1/1000 of L after
sufficiently many relaxation passes and stays there.  (The mass restriction
is forced: the correction is scaled by 1/m even in the pinned case, so the
per-pass error factor is 1 - 1/m, and for m < 1/2 the error grows - see the
counterexample at m = 1/4.) -/
theorem two_chain_convergence (L s0 m : ℚ) (hL : 0 < L) (hs0 : 0 < s0) (hm : 1 ≤ m) :
    ∃ N : Nat, ∀ n : Nat, N ≤ n → ∃ rp : Rope,
      Rope.passesE n (twoChain L s0 m) = Except.ok rp
      ∧ ∃ p0 p1, rp.particles.get? 0 = some p0 ∧ rp.particles.get? 1 = some p1
          ∧ |distanceQ p0.x p1.x - L| ≤ 1 / 1000 := by
  have hmpos : (0:ℚ) < m := lt_of_lt_of_le one_pos hm
  have hf0 : (0:ℚ) ≤ 1 - 1/m := by
    have h1 : 1/m ≤ 1 := by
      rw [div_le_one hmpos]
      exact hm
    linarith
  have hf1 : (1:ℚ) - 1/m < 1 := by
    have h2 : (0:ℚ) < 1/m := by positivity
    linarith
  obtain ⟨N, hN⟩ := exists_pow_lt_of_lt_one
    (show (0:ℚ) < (1/1000) / (|s0 - L| + 1) by positivity) hf1
  refine ⟨N, ?_⟩
  intro n hn
  have hstate := passesE_two L m hL hm n (freePartM ⟨s0, 0⟩ m) s0 rfl rfl rfl hs0
  have hfn0 : (0:ℚ) ≤ (1 - 1/m) ^ n := pow_nonneg hf0 n
  have hfn1 : (1 - 1/m) ^ n ≤ 1 := pow_le_one₀ hf0 hf1.le
  have hsn : 0 < L + (s0 - L) * (1 - 1/m) ^ n := by
    rcases le_or_lt L s0 with hc | hc
    · nlinarith [mul_nonneg (by linarith : (0:ℚ) ≤ s0 - L) hfn0]
    · have h1 : (s0 - L) * 1 ≤ (s0 - L) * (1 - 1/m) ^ n :=
        mul_le_mul_of_nonpos_left hfn1 (by linarith)
      linarith
  refine ⟨_, by unfold twoChain; exact hstate, ?_⟩
  refine ⟨pinnedAt ⟨0, 0⟩, { freePartM ⟨s0, 0⟩ m with x := ⟨L + (s0 - L) * (1 - 1/m) ^ n, 0⟩ },
    rfl, rfl, ?_⟩
  have hdist : distanceQ (pinnedAt ⟨0, 0⟩).x
      ({ freePartM ⟨s0, 0⟩ m with x := ⟨L + (s0 - L) * (1 - 1/m) ^ n, 0⟩ } : Particle).x
      = L + (s0 - L) * (1 - 1/m) ^ n := by
    unfold distanceQ
    apply sqrtQ_of_sq _ _ hsn.le
    simp [Vec.dot, pinnedAt, freePartM]
    all_goals ring
  rw [hdist]
  have habs : |L + (s0 - L) * (1 - 1/m) ^ n - L| = |s0 - L| * (1 - 1/m) ^ n := by
    rw [show L + (s0 - L) * (1 - 1/m) ^ n - L = (s0 - L) * (1 - 1/m) ^ n from by ring]
    rw [abs_mul, abs_of_nonneg hfn0]
  rw [habs]
  have hmono : (1 - 1/m) ^ n ≤ (1 - 1/m) ^ N := pow_le_pow_of_le_one hf0 hf1.le hn
  have hb1 : |s0 - L| * (1 - 1/m) ^ n ≤ |s0 - L| * ((1/1000) / (|s0 - L| + 1)) :=
    mul_le_mul_of_nonneg_left (le_of_lt (lt_of_le_of_lt hmono hN)) (abs_nonneg _)
  have hC : (0:ℚ) < |s0 - L| + 1 := by positivity
  have hb2 : |s0 - L| * ((1/1000) / (|s0 - L| + 1)) ≤ 1/1000 := by
    rw [mul_comm, div_mul_eq_mul_div, div_le_iff hC]
    nlinarith [abs_nonneg (s0 - L)]
  linarith

/-- Witness for C6 at L = 1, s0 = 2, m = 1: the hypotheses hold and the
convergence conclusion follows. -/
theorem two_chain_convergence_witness :
    (0:ℚ) < 1 ∧ (0:ℚ) < 2 ∧ (1:ℚ) ≤ 1
    ∧ ∃ N : Nat, ∀ n : Nat, N ≤ n → ∃ rp : Rope,
      Rope.passesE n (twoChain 1 2 1) = Except.ok rp
      ∧ ∃ p0 p1, rp.particles.get? 0 = some p0 ∧ rp.particles.get? 1 = some p1
          ∧ |distanceQ p0.x p1.x - 1| ≤ 1 / 1000 :=
  ⟨by norm_num, by norm_num, le_refl 1,
    two_chain_convergence 1 2 1 (by norm_num) (by norm_num) (le_refl 1)⟩

/-- Free endpoint of the divergence counterexample: mass 1/4 at (2, 0). -/
def cexFree : Particle := freePartM ⟨2, 0⟩ (1/4)

lemma cex_orbit_aux : ∀ n : Nat,
    (Rope.passesE n ⟨[pinnedAt ⟨0, 0⟩, { cexFree with x := ⟨2, 0⟩ }], 1, 1⟩
        = Except.ok ⟨[pinnedAt ⟨0, 0⟩,
            { cexFree with x := ⟨if n % 2 = 0 then 2 else -2, 0⟩ }], 1, 1⟩)
    ∧ (Rope.passesE n ⟨[pinnedAt ⟨0, 0⟩, { cexFree with x := ⟨-2, 0⟩ }], 1, 1⟩
        = Except.ok ⟨[pinnedAt ⟨0, 0⟩,
            { cexFree with x := ⟨if n % 2 = 0 then -2 else 2, 0⟩ }], 1, 1⟩) := by
  intro n
  induction n with
  | zero => exact ⟨rfl, rfl⟩
  | succ k ih =>
    obtain ⟨ih2, ihm2⟩ := ih
    have hparity1 : (if (k + 1) % 2 = 0 then (2:ℚ) else -2)
        = (if k % 2 = 0 then (-2:ℚ) else 2) := by
      rcases Nat.mod_two_eq_zero_or_one k with hk | hk
      · have hk1 : (k + 1) % 2 = 1 := by omega
        rw [hk, hk1]
        norm_num
      · have hk1 : (k + 1) % 2 = 0 := by omega
        rw [hk, hk1]
        norm_num
    have hparity2 : (if (k + 1) % 2 = 0 then (-2:ℚ) else 2)
        = (if k % 2 = 0 then (2:ℚ) else -2) := by
      rcases Nat.mod_two_eq_zero_or_one k with hk | hk
      · have hk1 : (k + 1) % 2 = 1 := by omega
        rw [hk, hk1]
        norm_num
      · have hk1 : (k + 1) % 2 = 0 := by omega
        rw [hk, hk1]
        norm_num
    constructor
    · simp only [Rope.passesE]
      have hp := passE_two_pos 1 2 ({ cexFree with x := ⟨2, 0⟩ }) rfl rfl (by norm_num)
      have hval : ((2:ℚ) - (2 - 1) / ({ cexFree with x := ⟨2, 0⟩ } : Particle).m) = -2 := by
        show ((2:ℚ) - (2 - 1) / (cexFree.m)) = -2
        norm_num [cexFree, freePartM]
      rw [hval] at hp
      have hcollapse : ({ { cexFree with x := ⟨2, 0⟩ } with x := ⟨-2, 0⟩ } : Particle)
          = { cexFree with x := ⟨-2, 0⟩ } := rfl
      rw [hcollapse] at hp
      simp only [hp]
      rw [hparity1]
      exact ihm2
    · simp only [Rope.passesE]
      have hp := passE_two_neg 1 (-2) ({ cexFree with x := ⟨-2, 0⟩ }) rfl rfl (by norm_num)
      have hval : ((-2:ℚ) + (-(-2) - 1) / ({ cexFree with x := ⟨-2, 0⟩ } : Particle).m) = 2 := by
        show ((-2:ℚ) + (-(-2) - 1) / (cexFree.m)) = 2
        norm_num [cexFree, freePartM]
      rw [hval] at hp
      have hcollapse : ({ { cexFree with x := ⟨-2, 0⟩ } with x := ⟨2, 0⟩ } : Particle)
          = { cexFree with x := ⟨2, 0⟩ } := rfl
      rw [hcollapse] at hp
      simp only [hp]
      rw [hparity2]
      exact ih2

/-- Claim C6 counterexample: for the concrete two-particle chain with rest
length 1, stiffness 1, one endpoint pinned at the origin and the free
endpoint of mass 1/4 starting at distinct separation 2, the free endpoint's
distance from the pinned endpoint equals 2 after every relaxation pass (the
per-pass error factor 1 - 1/m = -3 makes it oscillate between (2,0) and
(-2,0)), so it never comes within 1/1000 of the rest length - the claim's
universally quantified convergence fails. -/
theorem two_chain_divergence_light_mass :
    ¬ (∃ N : Nat, ∀ n : Nat, N ≤ n → ∃ rp : Rope,
      Rope.passesE n (twoChain 1 2 (1/4)) = Except.ok rp
      ∧ ∃ p0 p1, rp.particles.get? 0 = some p0 ∧ rp.particles.get? 1 = some p1
          ∧ |distanceQ p0.x p1.x - 1| ≤ 1 / 1000) := by
  rintro ⟨N, hN⟩
  obtain ⟨rp, hrp, p0, p1, h0, h1, hd⟩ := hN N le_rfl
  have horb := (cex_orbit_aux N).1
  rw [show ({ cexFree with x := ⟨2, 0⟩ } : Particle) = cexFree from rfl] at horb
  rw [show twoChain 1 2 (1/4) = ⟨[pinnedAt ⟨0, 0⟩, cexFree], 1, 1⟩ from rfl] at hrp
  rw [horb] at hrp
  injection hrp with hrp
  subst hrp
  simp only [List.get?_cons_zero, List.get?_cons_succ] at h0 h1
  injection h0 with h0
  injection h1 with h1
  subst h0
  subst h1
  have hdist : distanceQ (pinnedAt ⟨0, 0⟩).x
      ({ cexFree with x := ⟨if N % 2 = 0 then 2 else -2, 0⟩ } : Particle).x = 2 := by
    unfold distanceQ
    apply sqrtQ_of_sq 2 _ (by norm_num)
    rcases Nat.mod_two_eq_zero_or_one N with hk | hk
    · rw [hk]
      norm_num [Vec.dot, pinnedAt]
    · rw [hk]
      norm_num [Vec.dot, pinnedAt]
  rw [hdist] at hd
  norm_num at hd
